import Mathlib

/-!
Verification of the person-enrichment service (`main.go`).

The embedding models the JSON documents returned by the three lookup
services, the defensive field extraction performed by the Go code (Go
type assertions with a discarded `ok` flag yield the zero value; type
assertions without the flag, and out-of-range indexing, panic), the
enrichment orchestrator, and the CRUD handlers over an in-memory model
of the relational store.  A Go panic is modelled by `none` / the
`HandlerResult.panicked` constructor: the handler aborts and the store
is left unchanged.
-/

namespace BdApi

/-- A parsed JSON value, as produced by decoding into Go's
`map[string]interface{}` / `interface{}`: numbers become `float64`
(modelled here by `Rat`), objects become maps, arrays become slices. -/
inductive Json where
  | null : Json
  | bool (b : Bool) : Json
  | num (q : Rat) : Json
  | str (s : String) : Json
  | arr (elems : List Json) : Json
  | obj (fields : List (String × Json)) : Json

/-- A decoded top-level JSON object (`map[string]interface{}`). -/
abbrev JObj := List (String × Json)

/-- Go map indexing `m[k]`: the value when the key is present, otherwise
the nil interface (modelled by `none`). -/
def jGet (m : JObj) (k : String) : Option Json :=
  (m.find? (fun kv => kv.1 == k)).map (fun kv => kv.2)

/-- Go comma-ok type assertion `v.(float64)` with the ok flag discarded:
the number when `v` holds a float64, otherwise the zero value `0`. -/
def asFloat : Option Json → Rat
  | some (Json.num q) => q
  | _ => 0

/-- Go comma-ok type assertion `v.(string)` with the ok flag discarded:
the string when `v` holds a string, otherwise the empty string. -/
def asString : Option Json → String
  | some (Json.str s) => s
  | _ => ""

/-- Go conversion `int(f)` of a float64: truncation toward zero. -/
def truncRat (q : Rat) : Int :=
  q.num.tdiv (q.den : Int)

/-- Outcome of one lookup call (`client.R().SetResult(&response).Get(...)`):
`none` when the call returned a transport or parse error (the handler's
`err != nil` branch), otherwise the decoded response object. -/
abbrev LookupOutcome := Option JObj

/-- `getAgifyAge` (main.go): on error return 0; otherwise
`age, _ := response["age"].(float64); return int(age)`. -/
def getAgifyAge : LookupOutcome → Int
  | none => 0
  | some response => truncRat (asFloat (jGet response "age"))

/-- `getGenderizeGender` (main.go): on error return ""; otherwise
`gender, _ := response["gender"].(string); return gender`. -/
def getGenderizeGender : LookupOutcome → String
  | none => ""
  | some response => asString (jGet response "gender")

/-- `getNationality` (main.go): on error return ""; otherwise
`nationality, _ := response["country"].([]interface\x7b\x7d)[0].(map[string]interface\x7b\x7d)["country_id"].(string)`.
Only the outermost `.(string)` assertion has the comma-ok form; the
`.([]interface\x7b\x7d)` assertion, the `[0]` index on an empty slice, and the
`.(map[string]interface\x7b\x7d)` assertion all panic on mismatch, modelled by
`none`. -/
def getNationality : LookupOutcome → Option String
  | none => some ""
  | some response =>
    match jGet response "country" with
    | some (Json.arr elems) =>
      match elems with
      | [] => none
      | first :: _ =>
        match first with
        | Json.obj fields => some (asString (jGet fields "country_id"))
        | _ => none
    | _ => none

/-- The three configured lookup endpoints, as a map from the queried name
to the outcome each service produces for it. -/
structure LookupEnv where
  agify : String → LookupOutcome
  genderize : String → LookupOutcome
  nationalize : String → LookupOutcome

/-- `getEnrichedData` (main.go): the three lookups run sequentially and
independently; a panic inside `getNationality` aborts the whole
computation (`none`). -/
def getEnrichedData (env : LookupEnv) (name : String) :
    Option (Int × String × String) :=
  let age := getAgifyAge (env.agify name)
  let gender := getGenderizeGender (env.genderize name)
  match getNationality (env.nationalize name) with
  | none => none
  | some nationality => some (age, gender, nationality)

/-- The `Person` model (main.go): the store-assigned identifier from
`gorm.Model`, three user-supplied fields, three derived fields. -/
structure Person where
  id : Nat
  name : String
  surname : String
  patronymic : String
  age : Int
  gender : String
  nationality : String
deriving Repr, DecidableEq

/-- A well-formed JSON request body for create/update, as seen before Go's
`json.Decode` fills a zero-valued `Person`: each user-settable field is
either supplied or absent.  (A body that does not decode at all is
modelled by `Option Payload` being `none` at the handler.) -/
structure Payload where
  name : Option String
  surname : Option String
  patronymic : Option String
  age : Option Int
  gender : Option String
  nationality : Option String
deriving Repr, DecidableEq

/-- `decoder.Decode(&person)` on a zero-valued `Person`: absent fields
keep Go's zero value (empty string / 0). -/
def decodePayload (p : Payload) : Person :=
  { id := 0
    name := p.name.getD ""
    surname := p.surname.getD ""
    patronymic := p.patronymic.getD ""
    age := p.age.getD 0
    gender := p.gender.getD ""
    nationality := p.nationality.getD "" }

/-- `enrichPersonData` (main.go): overwrite the three derived fields with
the triple returned by `getEnrichedData` for the person's name.  `none`
when enrichment panicked. -/
def enrichPersonData (env : LookupEnv) (person : Person) : Option Person :=
  match getEnrichedData env person.name with
  | none => none
  | some (age, gender, nationality) =>
    some { person with age := age, gender := gender, nationality := nationality }

/-- The relational store: one row per person, plus the next identifier the
store will assign. -/
structure Store where
  people : List Person
  nextId : Nat
deriving Repr, DecidableEq

/-- `db.First(&person, personID)`: look a row up by primary key. -/
def Store.findById (s : Store) (pid : Nat) : Option Person :=
  s.people.find? (fun p => p.id == pid)

/-- `db.Create(&person)`: assign the next identifier and append the row.
Returns the stored row and the new store. -/
def Store.insert (s : Store) (p : Person) : Person × Store :=
  let stored := { p with id := s.nextId }
  (stored, { people := s.people ++ [stored], nextId := s.nextId + 1 })

/-- `db.Save(&person)`: replace the row with the same primary key. -/
def Store.save (s : Store) (p : Person) : Store :=
  { s with people := s.people.map (fun q => if q.id == p.id then p else q) }

/-- `db.Delete(&person)`: remove the row with the given primary key. -/
def Store.erase (s : Store) (pid : Nat) : Store :=
  { s with people := s.people.filter (fun p => !(p.id == pid)) }

/-- Result of one HTTP handler invocation: a response with a status code,
an optional `Person` body and the store after the call, or a Go panic
(`net/http` recovers it; the store is untouched and no response body is
written). -/
inductive HandlerResult where
  | resp (status : Nat) (body : Option Person) (store : Store)
  | panicked (store : Store)
deriving Repr, DecidableEq

/-- `createPerson` (main.go): a body that fails to decode yields 400 and
no further work; otherwise enrich (a panic aborts before any store
mutation), insert, and answer 201 with the stored record. -/
def createPerson (env : LookupEnv) (store : Store) (payload : Option Payload) :
    HandlerResult :=
  match payload with
  | none => HandlerResult.resp 400 none store
  | some payloadVal =>
    let person := decodePayload payloadVal
    match enrichPersonData env person with
    | none => HandlerResult.panicked store
    | some enriched =>
      let inserted := store.insert enriched
      HandlerResult.resp 201 (some inserted.1) inserted.2

/-- `getPerson` (main.go): a malformed id yields 400, a missing row 404,
otherwise 200 with the row; the store is never touched. -/
def getPerson (store : Store) (idParam : Option Nat) : HandlerResult :=
  match idParam with
  | none => HandlerResult.resp 400 none store
  | some pid =>
    match store.findById pid with
    | none => HandlerResult.resp 404 none store
    | some person => HandlerResult.resp 200 (some person) store

/-- `updatePerson` (main.go): after the id and existence checks, decode
the body into a fresh zero-valued `Person`, copy name/surname/patronymic
over the existing row, re-enrich from the (new) name, and save. -/
def updatePerson (env : LookupEnv) (store : Store) (idParam : Option Nat)
    (payload : Option Payload) : HandlerResult :=
  match idParam with
  | none => HandlerResult.resp 400 none store
  | some pid =>
    match store.findById pid with
    | none => HandlerResult.resp 404 none store
    | some existing =>
      match payload with
      | none => HandlerResult.resp 400 none store
      | some payloadVal =>
        let updated := decodePayload payloadVal
        let merged := { existing with
          name := updated.name
          surname := updated.surname
          patronymic := updated.patronymic }
        match enrichPersonData env merged with
        | none => HandlerResult.panicked store
        | some enriched =>
          HandlerResult.resp 200 (some enriched) (store.save enriched)

/-- `deletePerson` (main.go): a malformed id yields 400, a missing row
404, otherwise the row is removed and a message body (not a `Person`)
is returned with 200. -/
def deletePerson (store : Store) (idParam : Option Nat) : HandlerResult :=
  match idParam with
  | none => HandlerResult.resp 400 none store
  | some pid =>
    match store.findById pid with
    | none => HandlerResult.resp 404 none store
    | some _ => HandlerResult.resp 200 none (store.erase pid)

/-- A lookup environment in which all three services answer the
well-formed documents of the spec's worked example for any name. -/
def sampleEnv : LookupEnv where
  agify := fun _ => some [("age", Json.num 42)]
  genderize := fun _ => some [("gender", Json.str "male")]
  nationalize := fun _ =>
    some [("country", Json.arr [Json.obj [("country_id", Json.str "US")]])]

/-- The creation payload of the spec's worked example. -/
def payloadJohn : Payload where
  name := some "John"
  surname := some "Doe"
  patronymic := none
  age := none
  gender := none
  nationality := none

/-- A payload in which every field is absent (the JSON body `\x7b\x7d`). -/
def payloadEmpty : Payload where
  name := none
  surname := none
  patronymic := none
  age := none
  gender := none
  nationality := none

/-- A stored row used as the pre-state of the update scenarios. -/
def rowOld : Person where
  id := 7
  name := "John"
  surname := "Old"
  patronymic := ""
  age := 1
  gender := "g"
  nationality := "n"

/-- A second creation payload sharing the name "John" with `payloadJohn`
but differing in every other user-settable field. -/
def payloadJohnX : Payload where
  name := some "John"
  surname := some "X"
  patronymic := some "Y"
  age := some 99
  gender := some "z"
  nationality := some "w"

/-- The record `r` is the body of some successful write with payload `q`
against the lookup environment `env`: either a create (201) from some
store, or an update (200) of some identifier in some store.  In both
handlers the response body is exactly the row persisted. -/
def writesRecord (env : LookupEnv) (q : Payload) (r : Person) : Prop :=
  (∃ store t, createPerson env store (some q) = HandlerResult.resp 201 (some r) t) ∨
  (∃ store pid t, updatePerson env store (some pid) (some q)
      = HandlerResult.resp 200 (some r) t)

/-- An age-service outcome that carries no negative numeric "age" field:
the lookup failed, or the field is absent, non-numeric, or non-negative. -/
def ageOutcomeNonneg : LookupOutcome → Prop
  | none => True
  | some m => ∀ q : Rat, jGet m "age" = some (Json.num q) → 0 ≤ q

/-- Go's `int(f)` truncates toward zero: floor for non-negative values,
ceiling for negative ones. -/
theorem truncRat_eq_floor_ceil (q : Rat) :
    truncRat q = if 0 ≤ q then ⌊q⌋ else ⌈q⌉ := by
  by_cases hq : 0 ≤ q
  · rw [if_pos hq, Rat.floor_def]
    exact Int.tdiv_eq_ediv (Rat.num_nonneg.mpr hq) (Int.natCast_nonneg _)
  · rw [if_neg hq]
    have hq' : 0 ≤ -q := by
      have := lt_of_not_ge hq
      linarith
    have hnum : 0 ≤ (-q).num := Rat.num_nonneg.mpr hq'
    have h1 : truncRat (-q) = ⌊-q⌋ := by
      rw [Rat.floor_def, truncRat]
      exact Int.tdiv_eq_ediv hnum (Int.natCast_nonneg _)
    have h2 : truncRat (-q) = -truncRat q := by
      simp only [truncRat, Rat.neg_num, Rat.neg_den, Int.neg_tdiv]
    have h3 : (⌈q⌉ : Int) = -⌊-q⌋ := by
      rw [Int.floor_neg]
      ring
    rw [h3, ← h1, h2]
    ring

/-- C1: contrary to the claim, nationality extraction does raise: the
chained type assertions and the `[0]` index in `getNationality` panic
(modelled by `none`) when the "country" array is empty, when its first
element is not a mapping, and when the field is absent or not an array.
Only an absent or non-string "country_id" inside a first-element mapping
defaults to the empty string. -/
theorem c1_nationality_extraction_panics :
    getNationality (some [("country", Json.arr [])]) = none ∧
    getNationality (some [("country", Json.arr [Json.str "DE"])]) = none ∧
    getNationality (some []) = none ∧
    getNationality (some [("country", Json.str "DE")]) = none ∧
    getNationality (some [("country", Json.arr [Json.obj []])]) = some "" ∧
    getNationality (some [("country", Json.arr [Json.obj [("country_id", Json.num 7)]])]) = some "" :=
  ⟨rfl, rfl, rfl, rfl, rfl, rfl⟩

/-- C2: contrary to the claim, there is a combination of lookup outcomes
with a transport failure in the age lookup alone (the gender and
nationality lookups both return parsed documents) where the create
operation does not succeed with age defaulted to 0: the nationality
document with an empty "country" array makes the handler panic before
any store write. -/
theorem c2_create_aborts_despite_single_failure :
    createPerson
      { agify := fun _ => none
        genderize := fun _ => some [("gender", Json.str "male")]
        nationalize := fun _ => some [("country", Json.arr [])] }
      { people := [], nextId := 1 }
      (some payloadJohn)
      = HandlerResult.panicked { people := [], nextId := 1 } :=
  rfl

/-- C5: age extraction reads the top-level "age" field of the response
document: a numeric value is coerced to an integer truncating any
fractional part (floor when non-negative, ceiling when negative); an
absent or non-numeric field yields the default 0. -/
theorem c5_age_field_truncated_or_zero (response : JObj) :
    getAgifyAge (some response) =
      (match jGet response "age" with
       | some (Json.num q) => if 0 ≤ q then ⌊q⌋ else ⌈q⌉
       | _ => 0) := by
  show truncRat (asFloat (jGet response "age")) = _
  cases h : jGet response "age" with
  | none => simp [asFloat, truncRat]
  | some v =>
    cases v <;> simp [asFloat, truncRat_eq_floor_ceil]

/-- C6: a create whose body fails to decode answers with a client-input
error (400), leaves the store unchanged, and attempts no enrichment
lookup: the outcome is independent of the lookup environment. -/
theorem c6_malformed_create_no_effects (env env2 : LookupEnv) (store : Store) :
    createPerson env store none = HandlerResult.resp 400 none store ∧
    createPerson env store none = createPerson env2 store none :=
  ⟨rfl, rfl⟩

/-- Any record written by a successful create or update carries exactly
the enrichment triple for its payload's name. -/
theorem writesRecord_triple (env : LookupEnv) (q : Payload) (r : Person)
    (h : writesRecord env q r) :
    getEnrichedData env (q.name.getD "") = some (r.age, r.gender, r.nationality) := by
  rcases h with ⟨store, t, h⟩ | ⟨store, pid, t, h⟩
  · simp only [createPerson, enrichPersonData, decodePayload, Store.insert] at h
    cases hE : getEnrichedData env (q.name.getD "") with
    | none => rw [hE] at h; simp at h
    | some trip =>
      obtain ⟨a, g, n⟩ := trip
      rw [hE] at h
      simp at h
      obtain ⟨hr, -⟩ := h
      subst hr
      simp [hE]
  · simp only [updatePerson, enrichPersonData, decodePayload] at h
    cases hf : store.findById pid with
    | none => rw [hf] at h; simp at h
    | some existing =>
      rw [hf] at h
      cases hE : getEnrichedData env (q.name.getD "") with
      | none => simp only [] at h; rw [hE] at h; simp at h
      | some trip =>
        obtain ⟨a, g, n⟩ := trip
        simp only [] at h
        rw [hE] at h
        simp at h
        obtain ⟨hr, -⟩ := h
        subst hr
        simp [hE]

/-- C3: the derived triple is a function of the payload's name only: any
two successful create or update operations whose payloads carry the same
name, run against the same lookup responses, store identical age, gender
and nationality — whatever their surnames, patronymics, stores and
identifiers, and whichever of the two operations each one is. -/
theorem c3_derived_depend_only_on_name
    (env : LookupEnv) (q1 q2 : Payload) (hname : q1.name = q2.name)
    (r1 r2 : Person) (h1 : writesRecord env q1 r1) (h2 : writesRecord env q2 r2) :
    r1.age = r2.age ∧ r1.gender = r2.gender ∧ r1.nationality = r2.nationality := by
  have k1 := writesRecord_triple env q1 r1 h1
  have k2 := writesRecord_triple env q2 r2 h2
  rw [hname] at k1
  rw [k1] at k2
  simp at k2
  exact k2

/-- Witness for C3 at a mixed pair: a create and an update of row 7, both
with name "John" but different surnames and patronymics, store the same
derived triple. -/
theorem c3_witness :
    (⟨1, "John", "Doe", "", 42, "male", "US"⟩ : Person).age
        = (⟨7, "John", "X", "Y", 42, "male", "US"⟩ : Person).age ∧
    (⟨1, "John", "Doe", "", 42, "male", "US"⟩ : Person).gender
        = (⟨7, "John", "X", "Y", 42, "male", "US"⟩ : Person).gender ∧
    (⟨1, "John", "Doe", "", 42, "male", "US"⟩ : Person).nationality
        = (⟨7, "John", "X", "Y", 42, "male", "US"⟩ : Person).nationality :=
  c3_derived_depend_only_on_name sampleEnv payloadJohn payloadJohnX rfl
    ⟨1, "John", "Doe", "", 42, "male", "US"⟩
    ⟨7, "John", "X", "Y", 42, "male", "US"⟩
    (Or.inl ⟨{ people := [], nextId := 1 },
      { people := [⟨1, "John", "Doe", "", 42, "male", "US"⟩], nextId := 2 },
      by rfl⟩)
    (Or.inr ⟨{ people := [rowOld], nextId := 8 }, 7,
      { people := [⟨7, "John", "X", "Y", 42, "male", "US"⟩], nextId := 8 },
      by rfl⟩)

/-- C4: whenever an update succeeds, the stored derived triple is exactly
the enrichment triple recomputed from the payload's (new) name, and the
stored name is that payload name — with no hypothesis that the name
changed, so the recomputation also happens when the name is unchanged
from the prior row. -/
theorem c4_update_recomputes_derived
    (env : LookupEnv) (store : Store) (pid : Nat) (q : Payload) (r : Person) (t : Store)
    (h : updatePerson env store (some pid) (some q) = HandlerResult.resp 200 (some r) t) :
    r.name = q.name.getD "" ∧
    getEnrichedData env (q.name.getD "") = some (r.age, r.gender, r.nationality) := by
  simp only [updatePerson, enrichPersonData, decodePayload] at h
  cases hf : store.findById pid with
  | none =>
    rw [hf] at h
    simp at h
  | some existing =>
    rw [hf] at h
    cases hE : getEnrichedData env (q.name.getD "") with
    | none =>
      simp only [] at h
      rw [hE] at h
      simp at h
    | some trip =>
      obtain ⟨a, g, n⟩ := trip
      simp only [] at h
      rw [hE] at h
      simp at h
      obtain ⟨hr, -⟩ := h
      rw [← hr]
      simp [hE]

/-- Witness for C4: updating the stored row for "John" with a payload
whose name is again "John" still recomputes the derived triple. -/
theorem c4_witness :
    (⟨7, "John", "Doe", "", 42, "male", "US"⟩ : Person).name = (some "John").getD "" ∧
    getEnrichedData sampleEnv ((some "John").getD "")
      = some ((⟨7, "John", "Doe", "", 42, "male", "US"⟩ : Person).age,
              (⟨7, "John", "Doe", "", 42, "male", "US"⟩ : Person).gender,
              (⟨7, "John", "Doe", "", 42, "male", "US"⟩ : Person).nationality) :=
  c4_update_recomputes_derived sampleEnv { people := [rowOld], nextId := 8 } 7
    payloadJohn
    ⟨7, "John", "Doe", "", 42, "male", "US"⟩
    { people := [⟨7, "John", "Doe", "", 42, "male", "US"⟩], nextId := 8 }
    (by rfl)

/-- C7: read, update and delete against an identifier absent from the
store answer 404 and leave the store unchanged, and the update consults
no lookup service (its outcome is independent of the lookup
environment). -/
theorem c7_not_found_no_effects (env env2 : LookupEnv) (store : Store) (pid : Nat)
    (habs : store.findById pid = none) (payload : Option Payload) :
    getPerson store (some pid) = HandlerResult.resp 404 none store ∧
    updatePerson env store (some pid) payload = HandlerResult.resp 404 none store ∧
    deletePerson store (some pid) = HandlerResult.resp 404 none store ∧
    updatePerson env store (some pid) payload = updatePerson env2 store (some pid) payload := by
  refine ⟨?_, ?_, ?_, ?_⟩ <;> simp [getPerson, updatePerson, deletePerson, habs]

/-- Witness for C7: identifier 9 is absent from a store holding only
row 7. -/
theorem c7_witness :
    getPerson { people := [rowOld], nextId := 8 } (some 9)
      = HandlerResult.resp 404 none { people := [rowOld], nextId := 8 } :=
  (c7_not_found_no_effects sampleEnv sampleEnv { people := [rowOld], nextId := 8 } 9
    (by rfl) (some payloadJohn)).1

/-- A successful enrichment triple decomposes into the three per-service
extractions. -/
theorem getEnrichedData_components (env : LookupEnv) (nm : String)
    (a : Int) (g n : String) (h : getEnrichedData env nm = some (a, g, n)) :
    a = getAgifyAge (env.agify nm) ∧ g = getGenderizeGender (env.genderize nm) ∧
    getNationality (env.nationalize nm) = some n := by
  unfold getEnrichedData at h
  cases hN : getNationality (env.nationalize nm) with
  | none => rw [hN] at h; simp at h
  | some nat =>
    rw [hN] at h
    simp at h
    obtain ⟨ha, hg, hn⟩ := h
    exact ⟨ha.symm, hg.symm, by rw [hn]⟩

/-- Whenever the age-service outcome carries no negative numeric "age"
field, the extracted age is non-negative. -/
theorem getAgifyAge_nonneg (o : LookupOutcome) (h : ageOutcomeNonneg o) :
    0 ≤ getAgifyAge o := by
  cases o with
  | none => simp [getAgifyAge]
  | some m =>
    show 0 ≤ truncRat (asFloat (jGet m "age"))
    cases hj : jGet m "age" with
    | none => simp [asFloat, truncRat_eq_floor_ceil]
    | some v =>
      cases v with
      | num q =>
        have hq : 0 ≤ q := h q hj
        simp only [asFloat, truncRat_eq_floor_ceil, if_pos hq]
        exact Int.floor_nonneg.mpr hq
      | null => simp [asFloat, truncRat_eq_floor_ceil]
      | bool b => simp [asFloat, truncRat_eq_floor_ceil]
      | str s => simp [asFloat, truncRat_eq_floor_ceil]
      | arr l => simp [asFloat, truncRat_eq_floor_ceil]
      | obj f => simp [asFloat, truncRat_eq_floor_ceil]

/-- C8 counterexample: with the age service answering an "age" of -5
(and the other two lookups failing in transport), a create succeeds and
stores the negative age -5, contradicting the claim that the stored age
is non-negative whatever the age-service response. -/
theorem c8_counterexample_negative_age :
    createPerson
      { agify := fun _ => some [("age", Json.num (-5))]
        genderize := fun _ => none
        nationalize := fun _ => none }
      { people := [], nextId := 1 } (some payloadJohn)
      = HandlerResult.resp 201
          (some ⟨1, "John", "Doe", "", -5, "", ""⟩)
          { people := [⟨1, "John", "Doe", "", -5, "", ""⟩], nextId := 2 } ∧
    (⟨1, "John", "Doe", "", -5, "", ""⟩ : Person).age < 0 :=
  ⟨by decide, by decide⟩

/-- C8 amended: for every create or update that succeeds, the stored age
is non-negative provided the age-service outcome for the payload's name
carries no negative numeric "age" field (the code stores the truncation
of whatever number the service reports, including a negative one). -/
theorem c8_amended_age_nonneg
    (env : LookupEnv) (store : Store) (q : Payload) (r : Person) (t : Store)
    (hout : ageOutcomeNonneg (env.agify (q.name.getD "")))
    (h : createPerson env store (some q) = HandlerResult.resp 201 (some r) t ∨
         ∃ pid, updatePerson env store (some pid) (some q)
           = HandlerResult.resp 200 (some r) t) :
    0 ≤ r.age := by
  have key : ∀ a g n, getEnrichedData env (q.name.getD "") = some (a, g, n) → 0 ≤ a := by
    intro a g n hE
    obtain ⟨ha, -, -⟩ := getEnrichedData_components env _ a g n hE
    rw [ha]
    exact getAgifyAge_nonneg _ hout
  rcases h with h | ⟨pid, h⟩
  · simp only [createPerson, enrichPersonData, decodePayload, Store.insert] at h
    cases hE : getEnrichedData env (q.name.getD "") with
    | none => rw [hE] at h; simp at h
    | some trip =>
      obtain ⟨a, g, n⟩ := trip
      rw [hE] at h
      simp at h
      obtain ⟨hr, -⟩ := h
      rw [← hr]
      exact key a g n hE
  · simp only [updatePerson, enrichPersonData, decodePayload] at h
    cases hf : store.findById pid with
    | none => rw [hf] at h; simp at h
    | some existing =>
      rw [hf] at h
      cases hE : getEnrichedData env (q.name.getD "") with
      | none => simp only [] at h; rw [hE] at h; simp at h
      | some trip =>
        obtain ⟨a, g, n⟩ := trip
        simp only [] at h
        rw [hE] at h
        simp at h
        obtain ⟨hr, -⟩ := h
        rw [← hr]
        exact key a g n hE

/-- Witness for the amended C8 at the spec's worked example. -/
theorem c8_witness :
    (0 : Int) ≤ (⟨1, "John", "Doe", "", 42, "male", "US"⟩ : Person).age :=
  c8_amended_age_nonneg sampleEnv { people := [], nextId := 1 } payloadJohn
    ⟨1, "John", "Doe", "", 42, "male", "US"⟩
    { people := [⟨1, "John", "Doe", "", 42, "male", "US"⟩], nextId := 2 }
    (by
      intro x hx
      have hx' : Json.num 42 = Json.num x := by simpa [jGet] using hx
      injection hx' with hx''
      rw [← hx'']
      norm_num)
    (Or.inl (by rfl))

/-- C9: the client cannot set the derived fields: a create's outcome is
unchanged under any change to the payload's age/gender/nationality
fields, and a successful create stores exactly the enrichment triple for
the payload's name. -/
theorem c9_client_derived_fields_overwritten
    (env : LookupEnv) (store : Store) (q : Payload) (a : Option Int) (g n : Option String) :
    createPerson env store (some { q with age := a, gender := g, nationality := n })
      = createPerson env store (some q) ∧
    ∀ r t, createPerson env store (some q) = HandlerResult.resp 201 (some r) t →
      getEnrichedData env (q.name.getD "") = some (r.age, r.gender, r.nationality) := by
  refine ⟨rfl, ?_⟩
  intro r t h
  simp only [createPerson, enrichPersonData, decodePayload, Store.insert] at h
  cases hE : getEnrichedData env (q.name.getD "") with
  | none => rw [hE] at h; simp at h
  | some trip =>
    obtain ⟨a', g', n'⟩ := trip
    rw [hE] at h
    simp at h
    obtain ⟨hr, -⟩ := h
    subst hr
    simp [hE]

/-- Witness for C9: the worked example's create, with the payload's own
age/gender/nationality set to junk values, stores the enrichment triple. -/
theorem c9_witness :
    getEnrichedData sampleEnv (payloadJohn.name.getD "")
      = some ((⟨1, "John", "Doe", "", 42, "male", "US"⟩ : Person).age,
              (⟨1, "John", "Doe", "", 42, "male", "US"⟩ : Person).gender,
              (⟨1, "John", "Doe", "", 42, "male", "US"⟩ : Person).nationality) :=
  (c9_client_derived_fields_overwritten sampleEnv { people := [], nextId := 1 }
    payloadJohn (some 99) (some "z") (some "w")).2
    ⟨1, "John", "Doe", "", 42, "male", "US"⟩
    { people := [⟨1, "John", "Doe", "", 42, "male", "US"⟩], nextId := 2 }
    (by rfl)

/-- C10: on a successful update, each user-supplied field of the stored
row comes from the payload with absent fields becoming the empty string
(never preserved from the existing row), the saved row is the response
body, and a payload with no name triggers enrichment with the empty
name. -/
theorem c10_absent_payload_fields_emptied
    (env : LookupEnv) (store : Store) (pid : Nat) (q : Payload) (r : Person) (t : Store)
    (h : updatePerson env store (some pid) (some q) = HandlerResult.resp 200 (some r) t) :
    r.name = q.name.getD "" ∧ r.surname = q.surname.getD "" ∧
    r.patronymic = q.patronymic.getD "" ∧ t = store.save r ∧
    (q.name = none → r.name = "" ∧
      getEnrichedData env "" = some (r.age, r.gender, r.nationality)) := by
  simp only [updatePerson, enrichPersonData, decodePayload] at h
  cases hf : store.findById pid with
  | none => rw [hf] at h; simp at h
  | some existing =>
    rw [hf] at h
    cases hE : getEnrichedData env (q.name.getD "") with
    | none => simp only [] at h; rw [hE] at h; simp at h
    | some trip =>
      obtain ⟨a, g, n⟩ := trip
      simp only [] at h
      rw [hE] at h
      simp at h
      obtain ⟨hr, ht⟩ := h
      refine ⟨by rw [← hr], by rw [← hr], by rw [← hr], by rw [← ht, ← hr], ?_⟩
      intro hn
      rw [hn] at hE
      refine ⟨by rw [← hr]; simp [hn], ?_⟩
      rw [← hr]
      simpa using hE

/-- Witness for C10: updating row 7 with the empty JSON body empties all
three user fields and enriches with the empty name. -/
theorem c10_witness :
    (⟨7, "", "", "", 42, "male", "US"⟩ : Person).name = "" ∧
    getEnrichedData sampleEnv ""
      = some ((⟨7, "", "", "", 42, "male", "US"⟩ : Person).age,
              (⟨7, "", "", "", 42, "male", "US"⟩ : Person).gender,
              (⟨7, "", "", "", 42, "male", "US"⟩ : Person).nationality) :=
  (c10_absent_payload_fields_emptied sampleEnv { people := [rowOld], nextId := 8 } 7
    payloadEmpty
    ⟨7, "", "", "", 42, "male", "US"⟩
    { people := [⟨7, "", "", "", 42, "male", "US"⟩], nextId := 8 }
    (by rfl)).2.2.2.2 rfl

end BdApi
